import Mathlib

/-!
Verification of the payment webhook ingestion system (Django app `payments`).

The data model mirrors `payments/models.py`: organizations with a unique
tax id (INN) and a decimal balance, payments keyed by a unique
operation id, and an append-only balance log.  Monetary amounts are
modelled as integers counting hundredths (two decimal places), primary
keys as naturals assigned serially, and timestamps as integers.

The ingestion endpoint `BankWebhookView.post` from `payments/views.py`
is embedded with an explicit failure oracle for the storage steps of the
atomic block, so that rollback behaviour is expressible, plus a
small-step interleaving model of several concurrent request handlers
sharing the store.
-/

/-- One organization row (`payments.models.Organization`): serial primary
key, INN (unique tax identifier, 10-12 digits) and current balance in
hundredths. -/
structure Organization where
  id : Nat
  inn : String
  balance : Int
deriving Repr, DecidableEq

/-- One payment row (`payments.models.Payment`): serial primary key, the
sender-assigned unique operation id, amount, payer INN, document number,
document date, creation timestamp, and a nullable foreign key to the
owning organization. -/
structure Payment where
  id : Nat
  operation_id : Nat
  amount : Int
  payer_inn : String
  document_number : String
  document_date : Int
  created_at : Nat
  organization : Option Nat
deriving Repr, DecidableEq

/-- One audit row (`payments.models.BalanceLog`): the organization whose
balance changed, the delta, the resulting balance snapshot, a nullable
reference to the causing payment, and a creation timestamp. -/
structure BalanceLog where
  organization : Nat
  amount : Int
  new_balance : Int
  payment : Option Nat
  created_at : Nat
deriving Repr, DecidableEq

/-- The persistent store: the three tables of the app. -/
structure DB where
  organizations : List Organization
  payments : List Payment
  balance_logs : List BalanceLog
deriving Repr, DecidableEq

/-- The empty database. -/
def DB.empty : DB := ⟨[], [], []⟩

/-- A parsed inbound webhook body, before validation
(`payments.serializers.WebhookSerializer` input). -/
structure WebhookEvent where
  operation_id : Nat
  amount : Int
  payer_inn : String
  document_number : String
  document_date : Int
deriving Repr, DecidableEq

/-- The HTTP statuses the webhook view can answer with. -/
inductive HttpStatus where
  | ok200
  | badRequest400
  | serverError500
deriving Repr, DecidableEq

/-- A response of the webhook view: status plus the optional error body
(the view echoes the exception message on failure). -/
structure WebhookResponse where
  status : HttpStatus
  error : Option String
deriving Repr, DecidableEq

/-- Validation performed by `WebhookSerializer`: the operation id is a
UUID (128 bits), the amount is a decimal with at most 15 digits and
`min_value=0`, the payer INN is a 10-12 character digit string, and the
document number is a non-blank string of at most 50 characters. -/
def WebhookSerializer.isValid (e : WebhookEvent) : Bool :=
  decide (e.operation_id < 2 ^ 128) &&
  decide (0 ≤ e.amount) && decide (e.amount < 10 ^ 15) &&
  decide (10 ≤ e.payer_inn.length) && decide (e.payer_inn.length ≤ 12) &&
  e.payer_inn.toList.all Char.isDigit &&
  decide (1 ≤ e.document_number.length) && decide (e.document_number.length ≤ 50)

/-- `Organization.objects.filter(inn=...)` lookup: the first row whose
INN matches. -/
def findOrganization (db : DB) (inn : String) : Option Organization :=
  db.organizations.find? (fun o => o.inn == inn)

/-- `Organization.objects.get_or_create(inn=..., defaults=dict(balance=0))`:
returns the organization, a flag telling whether it was created, and the
updated store.  A created row gets the next serial primary key and
balance 0. -/
def getOrCreateOrganization (db : DB) (inn : String) :
    Organization × Bool × DB :=
  match findOrganization db inn with
  | some org => (org, false, db)
  | none =>
    let org : Organization := { id := db.organizations.length, inn := inn, balance := 0 }
    (org, true, { db with organizations := db.organizations ++ [org] })

/-- `Payment.objects.filter(operation_id=...).exists()`. -/
def paymentExists (db : DB) (opId : Nat) : Bool :=
  db.payments.any (fun p => p.operation_id == opId)

/-- `organization.save()`: writes the in-memory organization object back
to its row (matched by primary key). -/
def saveOrganization (db : DB) (org : Organization) : DB :=
  { db with organizations :=
      db.organizations.map (fun o => if o.id == org.id then org else o) }

/-- The five storage-touching steps inside the `transaction.atomic`
block of `BankWebhookView.post`. -/
inductive StorageStep where
  | orgResolve
  | paymentInsert
  | balanceUpdate
  | balanceSave
  | logInsert
deriving Repr, DecidableEq

/-- The happy path of the atomic block: resolve or create the
organization, insert the payment row, add the amount to the in-memory
balance, save the organization, and append the balance log entry. -/
def commitPayment (db : DB) (e : WebhookEvent) (now : Nat) : DB :=
  let res := getOrCreateOrganization db e.payer_inn
  let organization := res.1
  let db1 := res.2.2
  let payment : Payment :=
    { id := db1.payments.length, operation_id := e.operation_id, amount := e.amount,
      payer_inn := e.payer_inn, document_number := e.document_number,
      document_date := e.document_date, created_at := now,
      organization := some organization.id }
  let db2 := { db1 with payments := db1.payments ++ [payment] }
  let organization2 := { organization with balance := organization.balance + e.amount }
  let db3 := saveOrganization db2 organization2
  { db3 with balance_logs := db3.balance_logs ++
      [{ organization := organization2.id, amount := e.amount,
         new_balance := organization2.balance, payment := some payment.id,
         created_at := now }] }

/-- The body of the `transaction.atomic` block, with a failure oracle
`failAt` saying which storage steps raise.  A failure returns the
exception message together with the partially mutated store (which the
transaction will discard).  Inserting a payment whose operation id is
already present raises the storage layer's uniqueness violation. -/
def processPaymentTx (failAt : StorageStep → Bool) (db : DB) (e : WebhookEvent)
    (now : Nat) : Except (String × DB) DB :=
  if failAt .orgResolve then .error ("storage failure: organization get_or_create", db) else
  let res := getOrCreateOrganization db e.payer_inn
  let organization := res.1
  let db1 := res.2.2
  if failAt .paymentInsert then .error ("storage failure: payment insert", db1) else
  if paymentExists db1 e.operation_id then
    .error ("IntegrityError: duplicate operation_id", db1)
  else
  let payment : Payment :=
    { id := db1.payments.length, operation_id := e.operation_id, amount := e.amount,
      payer_inn := e.payer_inn, document_number := e.document_number,
      document_date := e.document_date, created_at := now,
      organization := some organization.id }
  let db2 := { db1 with payments := db1.payments ++ [payment] }
  if failAt .balanceUpdate then .error ("failure while computing new balance", db2) else
  let organization2 := { organization with balance := organization.balance + e.amount }
  if failAt .balanceSave then .error ("storage failure: organization save", db2) else
  let db3 := saveOrganization db2 organization2
  if failAt .logInsert then .error ("storage failure: balance log insert", db3) else
  .ok { db3 with balance_logs := db3.balance_logs ++
      [{ organization := organization2.id, amount := e.amount,
         new_balance := organization2.balance, payment := some payment.id,
         created_at := now }] }

/-- The failure oracle of a run in which every storage step succeeds. -/
def noFail : StorageStep → Bool := fun _ => false

/-- `BankWebhookView.post` (sequential semantics): validate the body
(400 on failure), answer 200 immediately when the operation id is
already recorded, otherwise run the atomic block; on success answer
200, on any exception roll the transaction back and answer 500 with the
exception message. -/
def BankWebhookView.post (failAt : StorageStep → Bool) (db : DB) (e : WebhookEvent)
    (now : Nat) : DB × WebhookResponse :=
  if WebhookSerializer.isValid e = false then (db, ⟨.badRequest400, none⟩)
  else if paymentExists db e.operation_id then (db, ⟨.ok200, none⟩)
  else
    match processPaymentTx failAt db e now with
    | .ok db2 => (db2, ⟨.ok200, none⟩)
    | .error r => (db, ⟨.serverError500, some r.1⟩)

/-- The balance the balance-query endpoint would report for an INN, with
0 standing for an absent organization. -/
def balanceOf (db : DB) (inn : String) : Int :=
  (findOrganization db inn).elim 0 (fun o => o.balance)

/-- Sum of the logged deltas belonging to one organization. -/
def logDeltaSum (db : DB) (orgId : Nat) : Int :=
  ((db.balance_logs.filter (fun l => l.organization == orgId)).map
    (fun l => l.amount)).sum

/-- Sequential processing of a list of webhook deliveries (each with its
arrival time), every storage step succeeding. -/
def processEvents (events : List (WebhookEvent × Nat)) (db : DB) : DB :=
  events.foldl (fun d en => (BankWebhookView.post noFail d en.1 en.2).1) db

/-- The stores reachable from the empty database by webhook deliveries,
with arbitrary storage failures allowed on each attempt. -/
inductive Reachable : DB → Prop where
  | init : Reachable DB.empty
  | step (db : DB) (f : StorageStep → Bool) (e : WebhookEvent) (now : Nat) :
      Reachable db → Reachable (BankWebhookView.post f db e now).1

/-- Organization primary keys are exactly the serial sequence
0,1,…,n-1 - true of every store built by the app, which never deletes
organizations. -/
def orgIdsOk (db : DB) : Prop :=
  db.organizations.map (fun o => o.id) = List.range db.organizations.length

/-- Referential and accounting invariants maintained by the ingestion
path: serial organization keys, balance-log entries referencing existing
organizations, the reconciliation equation, non-negative balances, and
every payment linked to the organization owning its payer INN. -/
structure DBInv (db : DB) : Prop where
  idsOk : orgIdsOk db
  logRefs : ∀ l ∈ db.balance_logs, l.organization < db.organizations.length
  recon : ∀ org ∈ db.organizations, logDeltaSum db org.id = org.balance
  nonneg : ∀ org ∈ db.organizations, 0 ≤ org.balance
  payOrg : ∀ p ∈ db.payments, ∃ org, org ∈ db.organizations ∧
    p.organization = some org.id ∧ org.inn = p.payer_inn

/-- Where one concurrent request handler stands in `BankWebhookView.post`,
together with the in-memory Python objects it holds.  Each phase is one
storage interaction of the view, executed against the shared store. -/
inductive HandlerPhase where
  | start
  | resolveOrg
  | insertPayment (org : Organization) (created : Bool)
  | saveBalance (org : Organization) (created : Bool) (payment : Payment)
  | insertLog (org : Organization) (payment : Payment)
  | done (response : WebhookResponse)
deriving Repr, DecidableEq

/-- One concurrent request handler: the validated event it carries, its
arrival time, and its current phase. -/
structure Handler where
  event : WebhookEvent
  now : Nat
  phase : HandlerPhase
deriving Repr, DecidableEq

/-- The response a handler has produced, once finished. -/
def Handler.response? (h : Handler) : Option WebhookResponse :=
  match h.phase with
  | .done r => some r
  | _ => none

/-- Transaction rollback of a lazily created organization row. -/
def removeOrganization (db : DB) (orgId : Nat) : DB :=
  { db with organizations := db.organizations.filter (fun o => o.id != orgId) }

/-- One storage interaction of a handler, acting on the shared store:
the duplicate check, `get_or_create`, the payment insert (raising the
uniqueness violation when the operation id is already present, which
rolls back the handler's transaction and yields the 500 answer),
the read-modify-write balance save, and the balance-log insert. -/
def stepHandler (db : DB) (h : Handler) : DB × Handler :=
  match h.phase with
  | .start =>
    if paymentExists db h.event.operation_id then
      (db, { h with phase := HandlerPhase.done ⟨.ok200, none⟩ })
    else
      (db, { h with phase := .resolveOrg })
  | .resolveOrg =>
    let res := getOrCreateOrganization db h.event.payer_inn
    (res.2.2, { h with phase := .insertPayment res.1 res.2.1 })
  | .insertPayment org created =>
    if paymentExists db h.event.operation_id then
      let db2 := if created then removeOrganization db org.id else db
      let resp : WebhookResponse :=
        ⟨.serverError500, some "IntegrityError: duplicate operation_id"⟩
      (db2, { h with phase := .done resp })
    else
      let payment : Payment :=
        { id := db.payments.length, operation_id := h.event.operation_id,
          amount := h.event.amount, payer_inn := h.event.payer_inn,
          document_number := h.event.document_number,
          document_date := h.event.document_date, created_at := h.now,
          organization := some org.id }
      ({ db with payments := db.payments ++ [payment] },
       { h with phase := .saveBalance org created payment })
  | .saveBalance org _created payment =>
    let org2 := { org with balance := org.balance + h.event.amount }
    (saveOrganization db org2, { h with phase := .insertLog org2 payment })
  | .insertLog org payment =>
    ({ db with balance_logs := db.balance_logs ++
        [{ organization := org.id, amount := h.event.amount,
           new_balance := org.balance, payment := some payment.id,
           created_at := h.now }] },
     { h with phase := HandlerPhase.done ⟨.ok200, none⟩ })
  | .done _ => (db, h)

/-- Run one scheduling decision: handler `i` executes its next storage
interaction. -/
def stepSystem (s : DB × List Handler) (i : Nat) : DB × List Handler :=
  match s.2[i]? with
  | none => s
  | some h =>
    let r := stepHandler s.1 h
    (r.1, s.2.set i r.2)

/-- Run a whole interleaving, given as the list of handler indices in
the order the scheduler lets them act. -/
def runSchedule (sched : List Nat) (s : DB × List Handler) : DB × List Handler :=
  sched.foldl stepSystem s

/-- The sortable fields the listing view declares
(`ordering_fields` of `OrganizationPaymentsView`). -/
def orderingFields : List String := ["amount", "document_date", "created_at"]

/-- Parse one ordering term of the `ordering` query parameter: an
optional leading "-" marks descending order, and only declared fields
are accepted. -/
def orderingTerm? (t : String) : Option (Bool × String) :=
  if t.startsWith "-" then
    let f := t.drop 1
    if orderingFields.contains f then some (true, f) else none
  else if orderingFields.contains t then some (false, t) else none

/-- The ordering the `OrderingFilter` backend applies: the valid terms
of the supplied parameter, or the view's default `-document_date` when
the parameter is missing or yields no valid term. -/
def getOrdering (param : Option String) : List (Bool × String) :=
  match param with
  | none => [(true, "document_date")]
  | some s =>
    let terms := (s.splitOn ",").filterMap orderingTerm?
    if terms = [] then [(true, "document_date")] else terms

/-- The comparable value a payment carries in an orderable field. -/
def fieldVal (f : String) (p : Payment) : Int :=
  if f = "amount" then p.amount
  else if f = "document_date" then p.document_date
  else (p.created_at : Int)

/-- Lexicographic `order_by` comparison over a list of
(descending?, field) terms. -/
def keyLe (ks : List (Bool × String)) (a b : Payment) : Bool :=
  match ks with
  | [] => true
  | (desc, f) :: rest =>
    if fieldVal f a = fieldVal f b then keyLe rest a b
    else if desc then decide (fieldVal f b < fieldVal f a)
    else decide (fieldVal f a < fieldVal f b)

/-- The query filters of the listing endpoint: the manual `payer_inn`
filter of `get_queryset` plus the `filterset_fields` exact filters, and
the `ordering` parameter. -/
structure PaymentListQuery where
  payer_inn : Option String
  document_number : Option String
  document_date : Option Int
  ordering : Option String
deriving Repr, DecidableEq

/-- The filtered (not yet ordered) queryset of
`OrganizationPaymentsView`. -/
def filteredPayments (db : DB) (q : PaymentListQuery) : List Payment :=
  let ps := db.payments
  let ps := match q.payer_inn with
    | some inn => ps.filter (fun p => p.payer_inn == inn)
    | none => ps
  let ps := match q.document_number with
    | some dn => ps.filter (fun p => p.document_number == dn)
    | none => ps
  match q.document_date with
  | some dd => ps.filter (fun p => p.document_date == dd)
  | none => ps

/-- The records the listing endpoint returns: the filtered queryset
ordered by the requested (or default) ordering. -/
def OrganizationPaymentsView.records (db : DB) (q : PaymentListQuery) : List Payment :=
  (filteredPayments db q).mergeSort (keyLe (getOrdering q.ordering))

/-- The 500 response the view produces when the payment insert hits the
uniqueness constraint. -/
def integrityResponse : WebhookResponse :=
  ⟨.serverError500, some "IntegrityError: duplicate operation_id"⟩

/-- A failure oracle under which the organization save raises. -/
def failBalanceSave : StorageStep → Bool := fun s => s == .balanceSave

/-- A sample valid webhook delivery (145000.00 for INN 1234567890). -/
def eW : WebhookEvent := ⟨7, 14500000, "1234567890", "PAY-328", 1714251600⟩

/-- A sample valid webhook delivery whose amount is exactly zero. -/
def eZ : WebhookEvent := ⟨8, 0, "1234567890", "PAY-0", 1714251700⟩

/-- Two concurrent handlers delivering the same operation id 7. -/
def handlersRace : List Handler :=
  [⟨⟨7, 500000, "1234567890", "PAY-1", 100⟩, 10, .start⟩,
   ⟨⟨7, 500000, "1234567890", "PAY-1", 100⟩, 11, .start⟩]

/-- The interleaving in which handler 1 passes the duplicate check
before handler 0 commits, then hits the uniqueness constraint. -/
def schedRace : List Nat := [1, 0, 0, 0, 0, 0, 1, 1]

/-- Three concurrent handlers delivering distinct payments (10.00,
20.00 and 40.00) for the same new organization. -/
def handlersLost : List Handler :=
  [⟨⟨1, 1000, "1234567890", "PAY-1", 100⟩, 10, .start⟩,
   ⟨⟨2, 2000, "1234567890", "PAY-2", 200⟩, 11, .start⟩,
   ⟨⟨3, 4000, "1234567890", "PAY-3", 300⟩, 12, .start⟩]

/-- The interleaving in which handler 0 commits first and handlers 1
and 2 both read its balance before either writes back. -/
def schedLost : List Nat := [0, 0, 0, 0, 0, 1, 1, 2, 2, 1, 1, 1, 2, 2, 2]

/-- A store holding the committed effects of the winning delivery of
operation id 7, as left behind by the first handler of `handlersRace`. -/
def dbRaceWon : DB :=
  ⟨[⟨0, "1234567890", 500000⟩],
   [⟨0, 7, 500000, "1234567890", "PAY-1", 100, 10, some 0⟩],
   [⟨0, 500000, 500000, some 0, 10⟩]⟩

/-- The losing handler of the race, about to insert its payment row. -/
def handlerRaceLoser : Handler :=
  ⟨⟨7, 500000, "1234567890", "PAY-1", 100⟩, 11,
   .insertPayment ⟨0, "1234567890", 500000⟩ false⟩

/-- A sample store with three payments whose document dates arrive out
of order. -/
def dbListing : DB :=
  ⟨[⟨0, "1234567890", 900000⟩],
   [⟨0, 21, 100000, "1234567890", "PAY-A", 500, 1, some 0⟩,
    ⟨1, 22, 300000, "1234567890", "PAY-B", 900, 2, some 0⟩,
    ⟨2, 23, 500000, "1234567890", "PAY-C", 700, 3, some 0⟩],
   []⟩

/-- A listing request with no filters and no ordering parameter. -/
def qDefault : PaymentListQuery := ⟨none, none, none, none⟩

/-- The three distinct deliveries of `handlersLost`, with arrival
times, for sequential processing. -/
def seqEvents : List (WebhookEvent × Nat) :=
  [(⟨1, 1000, "1234567890", "PAY-1", 100⟩, 10),
   (⟨2, 2000, "1234567890", "PAY-2", 200⟩, 11),
   (⟨3, 4000, "1234567890", "PAY-3", 300⟩, 12)]

/-! ### Basic facts about the storage operations -/

theorem getOrCreate_payments (db : DB) (inn : String) :
    (getOrCreateOrganization db inn).2.2.payments = db.payments := by
  cases h : findOrganization db inn <;> simp [getOrCreateOrganization, h]

theorem getOrCreate_logs (db : DB) (inn : String) :
    (getOrCreateOrganization db inn).2.2.balance_logs = db.balance_logs := by
  cases h : findOrganization db inn <;> simp [getOrCreateOrganization, h]

theorem getOrCreate_inn (db : DB) (inn : String) :
    (getOrCreateOrganization db inn).1.inn = inn := by
  cases h : findOrganization db inn with
  | none => simp [getOrCreateOrganization, h]
  | some org =>
    have h2 : db.organizations.find? (fun o => o.inn == inn) = some org := h
    have h3 := List.find?_some h2
    simp only [beq_iff_eq] at h3
    simp [getOrCreateOrganization, h, h3]

theorem getOrCreate_balance (db : DB) (inn : String) :
    (getOrCreateOrganization db inn).1.balance = balanceOf db inn := by
  cases h : findOrganization db inn <;>
    simp [getOrCreateOrganization, balanceOf, h, Option.elim]

theorem findOrganization_getOrCreate (db : DB) (inn : String) :
    findOrganization (getOrCreateOrganization db inn).2.2 inn =
      some (getOrCreateOrganization db inn).1 := by
  cases h : findOrganization db inn with
  | some org => simp [getOrCreateOrganization, h]
  | none =>
    have h2 : db.organizations.find? (fun o => o.inn == inn) = none := h
    simp [getOrCreateOrganization, h, findOrganization, h2]

theorem find?_map_replace (l : List Organization) (inn : String) (O O2 : Organization)
    (h : l.find? (fun o => o.inn == inn) = some O)
    (hid : O2.id = O.id) (hinn : O2.inn = O.inn) :
    (l.map (fun o => if o.id == O2.id then O2 else o)).find?
      (fun o => o.inn == inn) = some O2 := by
  induction l with
  | nil => simp at h
  | cons a l ih =>
    by_cases ha : (a.inn == inn) = true
    · rw [List.find?_cons_of_pos (p := fun (o : Organization) => o.inn == inn) _ ha] at h
      injection h with h
      subst h
      have hid2 : (a.id == O2.id) = true := by simp [hid]
      have hinn2 : (O2.inn == inn) = true := by
        simp only [beq_iff_eq] at ha ⊢; rw [hinn, ha]
      simp only [List.map_cons, hid2, if_pos rfl, if_true]
      exact List.find?_cons_of_pos (p := fun (o : Organization) => o.inn == inn) _ hinn2
    · rw [List.find?_cons_of_neg (p := fun (o : Organization) => o.inn == inn) _ ha] at h
      have tail := ih h
      by_cases hb : (a.id == O2.id) = true
      · have hinn2 : (O2.inn == inn) = true := by
          have := List.find?_some h
          simp only [beq_iff_eq] at this ⊢
          rw [hinn, this]
        simp only [List.map_cons, hb, if_true]
        exact List.find?_cons_of_pos (p := fun (o : Organization) => o.inn == inn) _ hinn2
      · simp only [List.map_cons]
        rw [if_neg hb]
        rw [List.find?_cons_of_neg (p := fun (o : Organization) => o.inn == inn) _ ha]
        exact tail

theorem replace_preserves_id (o org2 : Organization) :
    (if o.id == org2.id then org2 else o).id = o.id := by
  by_cases h : (o.id == org2.id) = true
  · simp only [beq_iff_eq] at h; simp [h]
  · simp [h]

theorem saveOrganization_ids (db : DB) (org2 : Organization) :
    (saveOrganization db org2).organizations.map (fun o => o.id) =
      db.organizations.map (fun o => o.id) := by
  simp only [saveOrganization, List.map_map]
  exact List.map_congr_left (fun o _ => replace_preserves_id o org2)

/-! ### The effect of one successful webhook delivery -/

theorem commitPayment_payments (db : DB) (e : WebhookEvent) (now : Nat) :
    (commitPayment db e now).payments = db.payments ++
      [{ id := db.payments.length, operation_id := e.operation_id, amount := e.amount,
         payer_inn := e.payer_inn, document_number := e.document_number,
         document_date := e.document_date, created_at := now,
         organization := some (getOrCreateOrganization db e.payer_inn).1.id }] := by
  simp [commitPayment, saveOrganization, getOrCreate_payments]

theorem commitPayment_logs (db : DB) (e : WebhookEvent) (now : Nat) :
    (commitPayment db e now).balance_logs = db.balance_logs ++
      [{ organization := (getOrCreateOrganization db e.payer_inn).1.id,
         amount := e.amount,
         new_balance := (getOrCreateOrganization db e.payer_inn).1.balance + e.amount,
         payment := some db.payments.length, created_at := now }] := by
  simp [commitPayment, saveOrganization, getOrCreate_logs, getOrCreate_payments]

theorem commitPayment_orgs (db : DB) (e : WebhookEvent) (now : Nat) :
    (commitPayment db e now).organizations =
      (getOrCreateOrganization db e.payer_inn).2.2.organizations.map
        (fun o => if o.id == (getOrCreateOrganization db e.payer_inn).1.id then
          { (getOrCreateOrganization db e.payer_inn).1 with
              balance := (getOrCreateOrganization db e.payer_inn).1.balance + e.amount }
          else o) := by
  simp [commitPayment, saveOrganization]

theorem commitPayment_balance (db : DB) (e : WebhookEvent) (now : Nat) :
    balanceOf (commitPayment db e now) e.payer_inn =
      balanceOf db e.payer_inn + e.amount := by
  have hfind : (getOrCreateOrganization db e.payer_inn).2.2.organizations.find?
      (fun o => o.inn == e.payer_inn) = some (getOrCreateOrganization db e.payer_inn).1 :=
    findOrganization_getOrCreate db e.payer_inn
  have hrep := find?_map_replace
    (getOrCreateOrganization db e.payer_inn).2.2.organizations e.payer_inn
    (getOrCreateOrganization db e.payer_inn).1
    { (getOrCreateOrganization db e.payer_inn).1 with
        balance := (getOrCreateOrganization db e.payer_inn).1.balance + e.amount }
    hfind rfl rfl
  rw [← getOrCreate_balance db e.payer_inn]
  unfold balanceOf findOrganization
  rw [commitPayment_orgs, hrep]
  simp [Option.elim]

theorem paymentExists_getOrCreate (db : DB) (inn : String) (opId : Nat) :
    paymentExists (getOrCreateOrganization db inn).2.2 opId = paymentExists db opId := by
  unfold paymentExists
  rw [getOrCreate_payments]

theorem processPaymentTx_noFail (db : DB) (e : WebhookEvent) (now : Nat)
    (hne : paymentExists db e.operation_id = false) :
    processPaymentTx noFail db e now = .ok (commitPayment db e now) := by
  have h1 : paymentExists (getOrCreateOrganization db e.payer_inn).2.2
      e.operation_id = false := by
    rw [paymentExists_getOrCreate]; exact hne
  simp [processPaymentTx, commitPayment, noFail, h1]

theorem processPaymentTx_ok (f : StorageStep → Bool) (db : DB) (e : WebhookEvent)
    (now : Nat) (db2 : DB) (h : processPaymentTx f db e now = .ok db2) :
    paymentExists db e.operation_id = false ∧ db2 = commitPayment db e now := by
  by_cases h1 : f .orgResolve = true
  · simp [processPaymentTx, h1] at h
  by_cases h2 : f .paymentInsert = true
  · simp [processPaymentTx, h1, h2] at h
  by_cases h3 : paymentExists (getOrCreateOrganization db e.payer_inn).2.2
      e.operation_id = true
  · simp [processPaymentTx, h1, h2, h3] at h
  by_cases h4 : f .balanceUpdate = true
  · simp [processPaymentTx, h1, h2, h3, h4] at h
  by_cases h5 : f .balanceSave = true
  · simp [processPaymentTx, h1, h2, h3, h4, h5] at h
  by_cases h6 : f .logInsert = true
  · simp [processPaymentTx, h1, h2, h3, h4, h5, h6] at h
  refine ⟨?_, ?_⟩
  · rw [paymentExists_getOrCreate] at h3
    exact Bool.not_eq_true _ ▸ h3
  · simp [processPaymentTx, h1, h2, h3, h4, h5, h6] at h
    rw [← h]
    simp [commitPayment]

theorem post_noFail_ok (db : DB) (e : WebhookEvent) (now : Nat)
    (hv : WebhookSerializer.isValid e = true)
    (hne : paymentExists db e.operation_id = false) :
    BankWebhookView.post noFail db e now = (commitPayment db e now, ⟨.ok200, none⟩) := by
  simp [BankWebhookView.post, hv, hne, processPaymentTx_noFail db e now hne]

theorem post_state_cases (f : StorageStep → Bool) (db : DB) (e : WebhookEvent)
    (now : Nat) :
    (BankWebhookView.post f db e now).1 = db ∨
    ((BankWebhookView.post f db e now).1 = commitPayment db e now ∧
     WebhookSerializer.isValid e = true ∧ paymentExists db e.operation_id = false) := by
  by_cases hv : WebhookSerializer.isValid e = true
  · by_cases hne : paymentExists db e.operation_id = true
    · left; simp [BankWebhookView.post, hv, hne]
    · have hne2 : paymentExists db e.operation_id = false := by simpa using hne
      cases htx : processPaymentTx f db e now with
      | ok db2 =>
        right
        have hc := processPaymentTx_ok f db e now db2 htx
        refine ⟨?_, hv, hne2⟩
        simp [BankWebhookView.post, hv, hne2, htx, hc.2]
      | error r => left; simp [BankWebhookView.post, hv, hne2, htx]
  · left
    have hv2 : WebhookSerializer.isValid e = false := by simpa using hv
    simp [BankWebhookView.post, hv2]

theorem commitPayment_orgs_found (db : DB) (e : WebhookEvent) (now : Nat)
    (O O2 : Organization) (h : findOrganization db e.payer_inn = some O)
    (hO2 : O2 = { O with balance := O.balance + e.amount }) :
    (commitPayment db e now).organizations =
      db.organizations.map (fun o => if o.id == O2.id then O2 else o) := by
  subst hO2
  rw [commitPayment_orgs]
  simp [getOrCreateOrganization, h]

theorem commitPayment_orgs_created (db : DB) (e : WebhookEvent) (now : Nat)
    (N2 : Organization) (h : findOrganization db e.payer_inn = none)
    (hlt : ∀ o ∈ db.organizations, o.id ≠ db.organizations.length)
    (hN2 : N2 = { id := db.organizations.length, inn := e.payer_inn,
                  balance := 0 + e.amount }) :
    (commitPayment db e now).organizations = db.organizations ++ [N2] := by
  subst hN2
  rw [commitPayment_orgs]
  simp only [getOrCreateOrganization, h]
  rw [List.map_append]
  congr 1
  · have heach : ∀ o ∈ db.organizations,
        (if o.id == db.organizations.length then
          ({ id := db.organizations.length, inn := e.payer_inn,
             balance := 0 + e.amount } : Organization) else o) = id o := by
      intro o ho
      rw [if_neg]
      · rfl
      · simp [hlt o ho]
    rw [List.map_congr_left heach, List.map_id]
  · simp

theorem orgIdsOk_lt (db : DB) (hids : orgIdsOk db) :
    ∀ o ∈ db.organizations, o.id < db.organizations.length := by
  intro o ho
  have hmem : o.id ∈ db.organizations.map (fun o => o.id) :=
    List.mem_map.mpr ⟨o, ho, rfl⟩
  rw [hids] at hmem
  exact List.mem_range.mp hmem

theorem orgIdsOk_inj (db : DB) (hids : orgIdsOk db) :
    ∀ a ∈ db.organizations, ∀ b ∈ db.organizations, a.id = b.id → a = b := by
  have hnd : (db.organizations.map (fun o => o.id)).Nodup := by
    rw [hids]; exact List.nodup_range _
  exact fun a ha b hb hab => List.inj_on_of_nodup_map hnd ha hb hab

theorem isValid_amount_nonneg (e : WebhookEvent)
    (hv : WebhookSerializer.isValid e = true) : 0 ≤ e.amount := by
  simp only [WebhookSerializer.isValid, Bool.and_eq_true, decide_eq_true_eq] at hv
  tauto

theorem logDeltaSum_append (db db2 : DB) (entry : BalanceLog) (orgId : Nat)
    (h : db2.balance_logs = db.balance_logs ++ [entry]) :
    logDeltaSum db2 orgId = logDeltaSum db orgId +
      (if (entry.organization == orgId) = true then entry.amount else 0) := by
  unfold logDeltaSum
  rw [h, List.filter_append]
  by_cases hc : (entry.organization == orgId) = true <;>
    simp [hc, List.filter_cons]

theorem logDeltaSum_of_fresh (db : DB) (orgId : Nat)
    (h : ∀ l ∈ db.balance_logs, l.organization ≠ orgId) :
    logDeltaSum db orgId = 0 := by
  unfold logDeltaSum
  rw [List.filter_eq_nil_iff.mpr]
  · rfl
  · intro l hl
    simp [h l hl]


theorem map_replace_ids (l : List Organization) (org2 : Organization) :
    (l.map (fun o => if o.id == org2.id then org2 else o)).map (fun o => o.id) =
      l.map (fun o => o.id) := by
  rw [List.map_map]
  exact List.map_congr_left (fun o _ => replace_preserves_id o org2)

theorem commitPayment_DBInv (db : DB) (e : WebhookEvent) (now : Nat)
    (inv : DBInv db) (hv : WebhookSerializer.isValid e = true) :
    DBInv (commitPayment db e now) := by
  have hamt : 0 ≤ e.amount := isValid_amount_nonneg e hv
  cases hfind : findOrganization db e.payer_inn with
  | some O =>
    have hOmem : O ∈ db.organizations := List.mem_of_find?_eq_some hfind
    have hOinn : O.inn = e.payer_inn := by
      have h2 : db.organizations.find? (fun o => o.inn == e.payer_inn) = some O := hfind
      have h3 := List.find?_some h2
      simpa [beq_iff_eq] using h3
    have hg1 : (getOrCreateOrganization db e.payer_inn).1 = O := by
      simp [getOrCreateOrganization, hfind]
    set O2 : Organization := { O with balance := O.balance + e.amount } with hO2
    have hO2id : O2.id = O.id := by rw [hO2]
    have hO2inn : O2.inn = O.inn := by rw [hO2]
    have hO2bal : O2.balance = O.balance + e.amount := by rw [hO2]
    have horgs := commitPayment_orgs_found db e now O O2 hfind hO2
    have hpay := commitPayment_payments db e now
    have hlog := commitPayment_logs db e now
    rw [hg1] at hpay hlog
    have hre : ∀ Y : Organization, (Y.id == O2.id) = true → Y ∈ db.organizations →
        Y = O := by
      intro Y hb hY
      refine orgIdsOk_inj db inv.idsOk Y hY O hOmem ?_
      rw [← hO2id]
      simpa using hb
    refine ⟨?_, ?_, ?_, ?_, ?_⟩
    · unfold orgIdsOk
      rw [horgs, List.length_map, map_replace_ids]
      exact inv.idsOk
    · intro l hl
      rw [hlog] at hl
      rw [horgs, List.length_map]
      rcases List.mem_append.mp hl with hold | hnew
      · exact inv.logRefs l hold
      · have hle := List.mem_singleton.mp hnew
        rw [hle]
        exact orgIdsOk_lt db inv.idsOk O hOmem
    · intro X hX
      rw [horgs] at hX
      obtain ⟨Y, hY, rfl⟩ := List.mem_map.mp hX
      rw [logDeltaSum_append db (commitPayment db e now) _ _ hlog]
      by_cases hcase : (Y.id == O2.id) = true
      · have hYO : Y = O := hre Y hcase hY
        subst hYO
        rw [if_pos hcase, hO2id, hO2bal]
        simp [inv.recon Y hY]
      · rw [if_neg hcase]
        have hne2 : (O.id == Y.id) = false := by
          rw [← hO2id]
          have h4 : Y.id ≠ O2.id := by simpa using hcase
          simp [beq_iff_eq]
          omega
        simp only [hne2]
        simp [inv.recon Y hY]
    · intro X hX
      rw [horgs] at hX
      obtain ⟨Y, hY, rfl⟩ := List.mem_map.mp hX
      by_cases hcase : (Y.id == O2.id) = true
      · have hYO : Y = O := hre Y hcase hY
        subst hYO
        rw [if_pos hcase, hO2bal]
        exact add_nonneg (inv.nonneg Y hY) hamt
      · rw [if_neg hcase]
        exact inv.nonneg Y hY
    · intro p hp
      rw [hpay] at hp
      rcases List.mem_append.mp hp with hold | hnew
      · obtain ⟨Z, hZ, hpo, hpinn⟩ := inv.payOrg p hold
        by_cases hzc : (Z.id == O2.id) = true
        · have hZO : Z = O := hre Z hzc hZ
          subst hZO
          refine ⟨O2, ?_, ?_, ?_⟩
          · rw [horgs]
            exact List.mem_map.mpr ⟨Z, hZ, by rw [if_pos hzc]⟩
          · rw [hO2id]
            exact hpo
          · rw [hO2inn]
            exact hpinn
        · refine ⟨Z, ?_, hpo, hpinn⟩
          rw [horgs]
          exact List.mem_map.mpr ⟨Z, hZ, by rw [if_neg hzc]⟩
      · have hpe := List.mem_singleton.mp hnew
        refine ⟨O2, ?_, ?_, ?_⟩
        · rw [horgs]
          refine List.mem_map.mpr ⟨O, hOmem, ?_⟩
          rw [if_pos]
          rw [hO2id]
          exact beq_self_eq_true O.id
        · rw [hpe, hO2id]
        · rw [hpe, hO2inn]
          exact hOinn
  | none =>
    have hlt : ∀ o ∈ db.organizations, o.id ≠ db.organizations.length := by
      intro o ho
      exact Nat.ne_of_lt (orgIdsOk_lt db inv.idsOk o ho)
    have hg1 : (getOrCreateOrganization db e.payer_inn).1 =
        { id := db.organizations.length, inn := e.payer_inn, balance := 0 } := by
      simp [getOrCreateOrganization, hfind]
    set N2 : Organization := { id := db.organizations.length, inn := e.payer_inn,
                               balance := 0 + e.amount } with hN2
    have hN2id : N2.id = db.organizations.length := by rw [hN2]
    have hN2inn : N2.inn = e.payer_inn := by rw [hN2]
    have hN2bal : N2.balance = 0 + e.amount := by rw [hN2]
    have horgs := commitPayment_orgs_created db e now N2 hfind hlt hN2
    have hpay := commitPayment_payments db e now
    have hlog := commitPayment_logs db e now
    rw [hg1] at hpay hlog
    refine ⟨?_, ?_, ?_, ?_, ?_⟩
    · unfold orgIdsOk
      rw [horgs, List.length_append, List.map_append, inv.idsOk]
      simp [List.range_succ, hN2id]
    · intro l hl
      rw [hlog] at hl
      rw [horgs, List.length_append]
      rcases List.mem_append.mp hl with hold | hnew
      · have := inv.logRefs l hold
        simp only [List.length_cons, List.length_nil]
        omega
      · have hle := List.mem_singleton.mp hnew
        rw [hle]
        simp
    · intro X hX
      rw [horgs] at hX
      rcases List.mem_append.mp hX with hold | hnew
      · have hXlt := orgIdsOk_lt db inv.idsOk X hold
        have hne2 : (db.organizations.length == X.id) = false := by
          simp [beq_iff_eq]
          omega
        rw [logDeltaSum_append db (commitPayment db e now) _ _ hlog]
        simp only [hne2]
        simp [inv.recon X hold]
      · have hXe := List.mem_singleton.mp hnew
        subst hXe
        rw [logDeltaSum_append db (commitPayment db e now) _ _ hlog, hN2id, hN2bal]
        have h0 : logDeltaSum db db.organizations.length = 0 := by
          apply logDeltaSum_of_fresh
          intro l hl
          exact Nat.ne_of_lt (inv.logRefs l hl)
        simp [h0]
    · intro X hX
      rw [horgs] at hX
      rcases List.mem_append.mp hX with hold | hnew
      · exact inv.nonneg X hold
      · have hXe := List.mem_singleton.mp hnew
        rw [hXe, hN2bal]
        simpa using hamt
    · intro p hp
      rw [hpay] at hp
      rcases List.mem_append.mp hp with hold | hnew
      · obtain ⟨Z, hZ, hpo, hpinn⟩ := inv.payOrg p hold
        refine ⟨Z, ?_, hpo, hpinn⟩
        rw [horgs]
        exact List.mem_append_left _ hZ
      · have hpe := List.mem_singleton.mp hnew
        refine ⟨N2, ?_, ?_, ?_⟩
        · rw [horgs]
          exact List.mem_append_right _ (by simp)
        · rw [hpe, hN2id]
        · rw [hpe, hN2inn]

theorem DBInv_empty : DBInv DB.empty := by
  refine ⟨rfl, ?_, ?_, ?_, ?_⟩ <;> intro x hx <;> cases hx

theorem reachable_DBInv (db : DB) (h : Reachable db) : DBInv db := by
  induction h with
  | init => exact DBInv_empty
  | step db f e now _hr ih =>
    rcases post_state_cases f db e now with hcase | ⟨hcase, hv, _hne⟩
    · rw [hcase]; exact ih
    · rw [hcase]; exact commitPayment_DBInv db e now ih hv

theorem paymentExists_commitPayment (db : DB) (e : WebhookEvent) (now : Nat)
    (opId : Nat) :
    paymentExists (commitPayment db e now) opId =
      (paymentExists db opId || (e.operation_id == opId)) := by
  unfold paymentExists
  rw [commitPayment_payments]
  simp

theorem fieldVal_dd (p : Payment) : fieldVal "document_date" p = p.document_date := rfl

theorem keyLe_default_iff (a b : Payment) :
    keyLe (getOrdering none) a b = true ↔ b.document_date ≤ a.document_date := by
  show keyLe [(true, "document_date")] a b = true ↔ _
  simp only [keyLe, fieldVal_dd]
  by_cases h : a.document_date = b.document_date
  · simp [h]
  · simp [h]
    omega

/-! ### Claim theorems -/

/-- C4: in every state reachable by a sequence of processed webhook
deliveries, the sum of the balance-log deltas of every organization
equals that organization's current balance (reconciliation
invariant). -/
theorem reconciliation_invariant (db : DB) (h : Reachable db) :
    ∀ org ∈ db.organizations, logDeltaSum db org.id = org.balance :=
  fun org hm => (reachable_DBInv db h).recon org hm

/-- Witness for C4: after one delivery from the empty store, the single
organization's logged deltas sum to its balance. -/
theorem reconciliation_invariant_witness :
    logDeltaSum (BankWebhookView.post noFail DB.empty eW 5).1
      (Organization.mk 0 "1234567890" 14500000).id =
      (Organization.mk 0 "1234567890" 14500000).balance :=
  reconciliation_invariant (BankWebhookView.post noFail DB.empty eW 5).1
    (Reachable.step DB.empty noFail eW 5 Reachable.init)
    (Organization.mk 0 "1234567890" 14500000) (by decide)

/-- C7: in every reachable state no organization's balance is negative:
the serializer admits only non-negative amounts and the core never
subtracts. -/
theorem balance_never_negative (db : DB) (h : Reachable db) :
    ∀ org ∈ db.organizations, 0 ≤ org.balance :=
  fun org hm => (reachable_DBInv db h).nonneg org hm

/-- Witness for C7 at a concrete reachable state. -/
theorem balance_never_negative_witness :
    0 ≤ (Organization.mk 0 "1234567890" 14500000).balance :=
  balance_never_negative (BankWebhookView.post noFail DB.empty eW 5).1
    (Reachable.step DB.empty noFail eW 5 Reachable.init)
    (Organization.mk 0 "1234567890" 14500000) (by decide)

/-- C9: in every reachable state, every payment row carries a non-null
organization reference, and the referenced organization's INN equals
the payment's stored payer INN. -/
theorem payment_linked_to_payer_org (db : DB) (h : Reachable db) :
    ∀ p ∈ db.payments, ∃ org, org ∈ db.organizations ∧
      p.organization = some org.id ∧ org.inn = p.payer_inn :=
  fun p hp => (reachable_DBInv db h).payOrg p hp

/-- Witness for C9 at a concrete reachable state. -/
theorem payment_linked_to_payer_org_witness :
    ∃ org, org ∈ (BankWebhookView.post noFail DB.empty eW 5).1.organizations ∧
      (Payment.mk 0 7 14500000 "1234567890" "PAY-328" 1714251600 5
        (some 0)).organization = some org.id ∧
      org.inn = (Payment.mk 0 7 14500000 "1234567890" "PAY-328" 1714251600 5
        (some 0)).payer_inn :=
  payment_linked_to_payer_org (BankWebhookView.post noFail DB.empty eW 5).1
    (Reachable.step DB.empty noFail eW 5 Reachable.init)
    (Payment.mk 0 7 14500000 "1234567890" "PAY-328" 1714251600 5 (some 0)) (by decide)

/-- C1: after a first successful processing of an operation id, a second
delivery with the same operation id answers the same 200 success,
changes nothing in the store, and the store holds exactly one payment
row with this operation id, exactly one new balance-log entry, and the
organization's balance reflects the amount exactly once. -/
theorem duplicate_delivery_idempotent (db0 : DB) (e e2 : WebhookEvent)
    (now now2 : Nat) (f : StorageStep → Bool)
    (hv : WebhookSerializer.isValid e = true)
    (hv2 : WebhookSerializer.isValid e2 = true)
    (hop : e2.operation_id = e.operation_id)
    (hne : paymentExists db0 e.operation_id = false) :
    BankWebhookView.post noFail db0 e now =
      ((BankWebhookView.post noFail db0 e now).1, ⟨.ok200, none⟩) ∧
    BankWebhookView.post f (BankWebhookView.post noFail db0 e now).1 e2 now2 =
      ((BankWebhookView.post noFail db0 e now).1, ⟨.ok200, none⟩) ∧
    ((BankWebhookView.post noFail db0 e now).1.payments.filter
      (fun p => p.operation_id == e.operation_id)).length = 1 ∧
    (BankWebhookView.post noFail db0 e now).1.balance_logs.length =
      db0.balance_logs.length + 1 ∧
    balanceOf (BankWebhookView.post noFail db0 e now).1 e.payer_inn =
      balanceOf db0 e.payer_inn + e.amount := by
  have hpost := post_noFail_ok db0 e now hv hne
  have hdb1 : (BankWebhookView.post noFail db0 e now).1 = commitPayment db0 e now := by
    rw [hpost]
  have hex : paymentExists (commitPayment db0 e now) e2.operation_id = true := by
    rw [paymentExists_commitPayment, hop]
    simp
  have hnil : db0.payments.filter (fun p => p.operation_id == e.operation_id) = [] := by
    rw [List.filter_eq_nil_iff]
    intro p hp
    have hall : db0.payments.any (fun p => p.operation_id == e.operation_id) = false := hne
    rw [List.any_eq_false] at hall
    simpa using hall p hp
  refine ⟨?_, ?_, ?_, ?_, ?_⟩
  · rw [hpost]
  · rw [hdb1]
    simp [BankWebhookView.post, hv2, hex]
  · rw [hdb1, commitPayment_payments, List.filter_append, hnil]
    simp
  · rw [hdb1, commitPayment_logs]
    simp
  · rw [hdb1]
    exact commitPayment_balance db0 e now

/-- Witness for C1: a concrete duplicate delivery of operation id 7. -/
theorem duplicate_delivery_idempotent_witness :
    BankWebhookView.post noFail
        (BankWebhookView.post noFail DB.empty eW 5).1 eW 6 =
      ((BankWebhookView.post noFail DB.empty eW 5).1, ⟨.ok200, none⟩) ∧
    balanceOf (BankWebhookView.post noFail DB.empty eW 5).1 eW.payer_inn =
      balanceOf DB.empty eW.payer_inn + eW.amount := by
  have h := duplicate_delivery_idempotent DB.empty eW eW 5 6 noFail
    (by decide) (by decide) rfl (by decide)
  exact ⟨h.2.1, h.2.2.2.2⟩

/-- C3: when any storage step of the atomic block raises, the view rolls
the whole transaction back: it answers 500 with the exception message
and the stored state is exactly what it was before the attempt. -/
theorem atomic_block_rolls_back (f : StorageStep → Bool) (db : DB)
    (e : WebhookEvent) (now : Nat) (msg : String) (pdb : DB)
    (hv : WebhookSerializer.isValid e = true)
    (hne : paymentExists db e.operation_id = false)
    (hfail : processPaymentTx f db e now = .error (msg, pdb)) :
    BankWebhookView.post f db e now = (db, ⟨.serverError500, some msg⟩) := by
  simp [BankWebhookView.post, hv, hne, hfail]

/-- Witness for C3: the organization save fails on a concrete delivery
and the store stays empty. -/
theorem atomic_block_rolls_back_witness :
    BankWebhookView.post failBalanceSave DB.empty eW 5 =
      (DB.empty, ⟨.serverError500, some "storage failure: organization save"⟩) :=
  atomic_block_rolls_back failBalanceSave DB.empty eW 5
    "storage failure: organization save"
    ⟨[⟨0, "1234567890", 0⟩],
     [⟨0, 7, 14500000, "1234567890", "PAY-328", 1714251600, 5, some 0⟩], []⟩
    (by decide) (by decide) rfl

/-- C6: a delivery whose payer INN matches no stored organization
creates, on success, exactly one new organization; `get_or_create`
reports it created with balance 0, and after the mutation its balance
equals the delivered amount. -/
theorem lazy_organization_creation (db : DB) (e : WebhookEvent) (now : Nat)
    (hids : orgIdsOk db)
    (hv : WebhookSerializer.isValid e = true)
    (hnone : findOrganization db e.payer_inn = none)
    (hne : paymentExists db e.operation_id = false) :
    (getOrCreateOrganization db e.payer_inn).2.1 = true ∧
    (getOrCreateOrganization db e.payer_inn).1.balance = 0 ∧
    ((BankWebhookView.post noFail db e now).1.organizations.filter
      (fun o => o.inn == e.payer_inn)).length = 1 ∧
    balanceOf (BankWebhookView.post noFail db e now).1 e.payer_inn = e.amount ∧
    (BankWebhookView.post noFail db e now).2 = ⟨.ok200, none⟩ := by
  have hpost := post_noFail_ok db e now hv hne
  have hdb1 : (BankWebhookView.post noFail db e now).1 = commitPayment db e now := by
    rw [hpost]
  have hlt : ∀ o ∈ db.organizations, o.id ≠ db.organizations.length := by
    intro o ho
    exact Nat.ne_of_lt (orgIdsOk_lt db hids o ho)
  have horgs := commitPayment_orgs_created db e now
    ⟨db.organizations.length, e.payer_inn, 0 + e.amount⟩ hnone hlt rfl
  have hmiss : ∀ o ∈ db.organizations, ¬ ((o.inn == e.payer_inn) = true) := by
    have h2 : db.organizations.find? (fun o => o.inn == e.payer_inn) = none := hnone
    rw [List.find?_eq_none] at h2
    exact h2
  refine ⟨?_, ?_, ?_, ?_, ?_⟩
  · simp [getOrCreateOrganization, hnone]
  · simp [getOrCreateOrganization, hnone]
  · rw [hdb1, horgs, List.filter_append, List.filter_eq_nil_iff.mpr hmiss]
    simp
  · rw [hdb1, commitPayment_balance]
    unfold balanceOf
    rw [hnone]
    simp [Option.elim]
  · rw [hpost]

/-- Witness for C6: the first delivery for INN 1234567890 creates the
organization and leaves balance 145000.00. -/
theorem lazy_organization_creation_witness :
    ((BankWebhookView.post noFail DB.empty eW 5).1.organizations.filter
      (fun o => o.inn == eW.payer_inn)).length = 1 ∧
    balanceOf (BankWebhookView.post noFail DB.empty eW 5).1 eW.payer_inn =
      eW.amount := by
  have h := lazy_organization_creation DB.empty eW 5 rfl (by decide) rfl (by decide)
  exact ⟨h.2.2.1, h.2.2.2.1⟩

/-- C10: a delivery with amount exactly 0 passes the serializer and is
processed normally: one payment row is added, one balance-log entry
with delta 0 is appended whose recorded new balance equals the
organization's balance, the balance is unchanged, and the view answers
200. -/
theorem zero_amount_accepted (db : DB) (e : WebhookEvent) (now : Nat)
    (h0 : e.amount = 0)
    (hop : e.operation_id < 2 ^ 128)
    (hinn1 : 10 ≤ e.payer_inn.length) (hinn2 : e.payer_inn.length ≤ 12)
    (hinn3 : e.payer_inn.toList.all Char.isDigit = true)
    (hdn1 : 1 ≤ e.document_number.length) (hdn2 : e.document_number.length ≤ 50)
    (hne : paymentExists db e.operation_id = false) :
    WebhookSerializer.isValid e = true ∧
    (BankWebhookView.post noFail db e now).2 = ⟨.ok200, none⟩ ∧
    (BankWebhookView.post noFail db e now).1.payments.length =
      db.payments.length + 1 ∧
    (BankWebhookView.post noFail db e now).1.balance_logs = db.balance_logs ++
      [⟨(getOrCreateOrganization db e.payer_inn).1.id, 0,
        balanceOf db e.payer_inn, some db.payments.length, now⟩] ∧
    balanceOf (BankWebhookView.post noFail db e now).1 e.payer_inn =
      balanceOf db e.payer_inn := by
  have hv : WebhookSerializer.isValid e = true := by
    simp only [WebhookSerializer.isValid, Bool.and_eq_true, decide_eq_true_eq]
    refine ⟨⟨⟨⟨⟨⟨⟨hop, by rw [h0]⟩, by rw [h0]; decide⟩, hinn1⟩, hinn2⟩, hinn3⟩, hdn1⟩, hdn2⟩
  have hpost := post_noFail_ok db e now hv hne
  have hdb1 : (BankWebhookView.post noFail db e now).1 = commitPayment db e now := by
    rw [hpost]
  refine ⟨hv, ?_, ?_, ?_, ?_⟩
  · rw [hpost]
  · rw [hdb1, commitPayment_payments]
    simp
  · rw [hdb1, commitPayment_logs]
    rw [getOrCreate_balance, h0]
    simp
  · rw [hdb1, commitPayment_balance, h0, add_zero]

/-- Witness for C10: a concrete zero-amount delivery. -/
theorem zero_amount_accepted_witness :
    WebhookSerializer.isValid eZ = true ∧
    (BankWebhookView.post noFail DB.empty eZ 9).2 = ⟨.ok200, none⟩ ∧
    balanceOf (BankWebhookView.post noFail DB.empty eZ 9).1 eZ.payer_inn =
      balanceOf DB.empty eZ.payer_inn := by
  have h := zero_amount_accepted DB.empty eZ 9 rfl (by decide) (by decide)
    (by decide) (by decide) (by decide) (by decide) (by decide)
  exact ⟨h.1, h.2.1, h.2.2.2.2⟩

/-- C8: when no ordering field is supplied, the listing endpoint returns
the matching payments ordered by document date, newest first (and the
result is a permutation of the filtered queryset). -/
theorem default_order_newest_document_date_first (db : DB) (q : PaymentListQuery)
    (hord : q.ordering = none) :
    (OrganizationPaymentsView.records db q).Pairwise
      (fun a b => b.document_date ≤ a.document_date) ∧
    (OrganizationPaymentsView.records db q).Perm (filteredPayments db q) := by
  unfold OrganizationPaymentsView.records
  rw [hord]
  constructor
  · have htrans : ∀ a b c : Payment, keyLe (getOrdering none) a b = true →
        keyLe (getOrdering none) b c = true → keyLe (getOrdering none) a c = true := by
      intro a b c hab hbc
      rw [keyLe_default_iff] at hab hbc ⊢
      exact le_trans hbc hab
    have htotal : ∀ a b : Payment, (keyLe (getOrdering none) a b ||
        keyLe (getOrdering none) b a) = true := by
      intro a b
      rcases le_total b.document_date a.document_date with h | h
      · rw [Bool.or_eq_true]
        exact Or.inl ((keyLe_default_iff a b).mpr h)
      · rw [Bool.or_eq_true]
        exact Or.inr ((keyLe_default_iff b a).mpr h)
    have hs := List.sorted_mergeSort htrans htotal (filteredPayments db q)
    exact hs.imp (fun hab => (keyLe_default_iff _ _).mp hab)
  · exact List.mergeSort_perm _ _

/-- Witness for C8 on a store whose payments arrive out of document
date order. -/
theorem default_order_newest_document_date_first_witness :
    (OrganizationPaymentsView.records dbListing qDefault).Pairwise
      (fun a b => b.document_date ≤ a.document_date) ∧
    (OrganizationPaymentsView.records dbListing qDefault).Perm
      (filteredPayments dbListing qDefault) :=
  default_order_newest_document_date_first dbListing qDefault rfl

/-- C2 counterexample: in the concurrent race on operation id 7 the
losing handler's payment insert hits the uniqueness constraint and the
view answers 500 with the error body - not the accepted/no-op success
the claim requires.  The winner's 200 and the single stored payment
confirm the trigger of the claim held. -/
theorem constraint_race_not_success_cex :
    (runSchedule schedRace (DB.empty, handlersRace)).2.map Handler.response? =
      [some ⟨.ok200, none⟩, some integrityResponse] ∧
    integrityResponse.status ≠ .ok200 ∧
    (runSchedule schedRace (DB.empty, handlersRace)).1.payments.length = 1 := by
  decide

/-- C2 (amended): when the payment insert of a handler raises the
uniqueness violation because the row already exists (the concurrent
winner inserted it), `BankWebhookView.post` catches the exception, rolls
its transaction back, and answers 500 with the exception message - it
does not answer success. -/
theorem constraint_race_returns_500 (db : DB) (h : Handler) (org : Organization)
    (hphase : h.phase = .insertPayment org false)
    (hdup : paymentExists db h.event.operation_id = true) :
    stepHandler db h = (db, { h with phase := .done integrityResponse }) := by
  simp [stepHandler, hphase, hdup, integrityResponse]

/-- Witness for the amended C2: the loser of the concrete race. -/
theorem constraint_race_returns_500_witness :
    stepHandler dbRaceWon handlerRaceLoser =
      (dbRaceWon, { handlerRaceLoser with phase := .done integrityResponse }) :=
  constraint_race_returns_500 dbRaceWon handlerRaceLoser
    ⟨0, "1234567890", 500000⟩ rfl (by decide)

/-- C5 counterexample: three concurrent distinct payments of 10.00,
20.00 and 40.00 for one new organization, all answered 200, leave
balance 50.00 instead of 70.00: the unlocked read-modify-write of the
balance loses the 20.00 increment, although all three payment rows and
all three log rows exist. -/
theorem concurrent_lost_update_cex :
    (runSchedule schedLost (DB.empty, handlersLost)).2.map Handler.response? =
      [some ⟨.ok200, none⟩, some ⟨.ok200, none⟩, some ⟨.ok200, none⟩] ∧
    (runSchedule schedLost (DB.empty, handlersLost)).1.payments.length = 3 ∧
    (runSchedule schedLost (DB.empty, handlersLost)).1.balance_logs.length = 3 ∧
    balanceOf (runSchedule schedLost (DB.empty, handlersLost)).1 "1234567890" = 5000 ∧
    (handlersLost.map (fun h => h.event.amount)).sum = 7000 ∧
    ¬ balanceOf (runSchedule schedLost (DB.empty, handlersLost)).1 "1234567890" =
        (handlersLost.map (fun h => h.event.amount)).sum := by
  decide

/-- C5 (amended): N distinct deliveries for the same organization
processed sequentially (each request finishing before the next starts)
yield balance grown by the sum of the amounts, N payment rows and N
balance-log rows; the guarantee fails only under concurrent
interleaving of the unlocked read-modify-write. -/
theorem sequential_payments_no_lost_update (events : List (WebhookEvent × Nat))
    (inn : String) :
    ∀ db : DB,
      (∀ en ∈ events, WebhookSerializer.isValid en.1 = true ∧
        en.1.payer_inn = inn) →
      (events.map (fun en => en.1.operation_id)).Nodup →
      (∀ en ∈ events, paymentExists db en.1.operation_id = false) →
      balanceOf (processEvents events db) inn =
        balanceOf db inn + (events.map (fun en => en.1.amount)).sum ∧
      (processEvents events db).payments.length =
        db.payments.length + events.length ∧
      (processEvents events db).balance_logs.length =
        db.balance_logs.length + events.length := by
  induction events with
  | nil =>
    intro db _ _ _
    simp [processEvents]
  | cons en rest ih =>
    intro db hval hnodup hfresh
    obtain ⟨hv, hinn⟩ := hval en (List.mem_cons_self en rest)
    have hne := hfresh en (List.mem_cons_self en rest)
    have hstep : processEvents (en :: rest) db =
        processEvents rest (commitPayment db en.1 en.2) := by
      unfold processEvents
      rw [List.foldl_cons, post_noFail_ok db en.1 en.2 hv hne]
    rw [List.map_cons] at hnodup
    obtain ⟨hnotmem, hnodup2⟩ := List.nodup_cons.mp hnodup
    have hval2 : ∀ en2 ∈ rest, WebhookSerializer.isValid en2.1 = true ∧
        en2.1.payer_inn = inn := fun en2 hm => hval en2 (List.mem_cons_of_mem en hm)
    have hfresh2 : ∀ en2 ∈ rest,
        paymentExists (commitPayment db en.1 en.2) en2.1.operation_id = false := by
      intro en2 hm
      rw [paymentExists_commitPayment]
      have h1 := hfresh en2 (List.mem_cons_of_mem en hm)
      have hne2 : en.1.operation_id ≠ en2.1.operation_id := by
        intro hEq
        exact hnotmem (hEq ▸ List.mem_map.mpr ⟨en2, hm, rfl⟩)
      simp [h1, hne2]
    have hIH := ih (commitPayment db en.1 en.2) hval2 hnodup2 hfresh2
    rw [hstep]
    refine ⟨?_, ?_, ?_⟩
    · rw [hIH.1, ← hinn, commitPayment_balance, List.map_cons, List.sum_cons]
      ring
    · rw [hIH.2.1, commitPayment_payments]
      simp only [List.length_append, List.length_cons, List.length_nil]
      omega
    · rw [hIH.2.2, commitPayment_logs]
      simp only [List.length_append, List.length_cons, List.length_nil]
      omega

/-- Witness for the amended C5: the three deliveries of the lost-update
scenario, processed sequentially, do land 70.00 on the balance. -/
theorem sequential_payments_no_lost_update_witness :
    balanceOf (processEvents seqEvents DB.empty) "1234567890" =
      balanceOf DB.empty "1234567890" +
        (seqEvents.map (fun en => en.1.amount)).sum ∧
    (processEvents seqEvents DB.empty).payments.length =
      DB.empty.payments.length + seqEvents.length ∧
    (processEvents seqEvents DB.empty).balance_logs.length =
      DB.empty.balance_logs.length + seqEvents.length :=
  sequential_payments_no_lost_update seqEvents "1234567890" DB.empty
    (by decide) (by decide) (by decide)
